import Mathlib

/-!
Verification of the syntax-tree pattern-matching and mutation engine of the
debug-useeffects scripts.

The scripts parse JavaScript/JSX source into a Babel syntax tree, walk it with
visitors, and either collect findings (the useState-initialization analyzer) or
mutate the tree (the setter logger, the useEffect logger, the Profiler wrapper).
We model the node-kind subset of the Babel tree those visitors consume, embed
each visitor pass as a pure traversal over that tree, and prove the spec's
claims about them.  Parsing, code generation and the file system are external
collaborators: a source file is modeled as its parse result (or a parse error),
and writing back is modeled as the value the engine would hand the serializer.
Source-location metadata (`node.loc`, raw source-text slices) lives in the
parser infrastructure and is not part of the tree model; the fields of findings
and log labels derived from it are omitted, which no claim depends on.
-/

namespace DebugUseEffects

/-- An import specifier: a named one (`imported` bound as `localName`) or a
default one. -/
inductive ImportSpec where
  | named (imported localName : String)
  | defaultSpec (localName : String)
deriving DecidableEq, Repr

/-- A binding pattern on the left of a variable declarator: a plain
identifier or an array pattern of (possibly elided) identifiers. -/
inductive Pat where
  | id (name : String)
  | arrayPat (elements : List (Option String))
deriving DecidableEq, Repr

mutual
/-- Expression nodes: the Babel node kinds the scripts inspect.  `member`
models `console.log`-style member callees, `assign` the synthesized
`+=` counter updates, `jsx` a JSX element with attribute list and children. -/
inductive Expr where
  | ident (name : String)
  | boolLit (b : Bool)
  | strLit (s : String)
  | numLit (n : Int)
  | nullLit
  | arrowFn (body : FnBody)
  | fnExpr (fid : Option String) (body : List Stmt)
  | cond (test consequent alternate : Expr)
  | logical (op : String) (lhs rhs : Expr)
  | call (callee : Expr) (args : List Expr)
  | member (obj : Expr) (prop : String)
  | assign (op : String) (target value : Expr)
  | objectE (props : List (String × Expr))
  | arrayE (elems : List Expr)
  | binary (op : String) (lhs rhs : Expr)
  | jsx (tag : String) (attrs : List (String × Expr)) (children : List Expr)
      (selfClosing : Bool)
  | jsxFragment (children : List Expr)

/-- An arrow-function body: either a block of statements or a bare
expression (implicit return). -/
inductive FnBody where
  | block (stmts : List Stmt)
  | expr (e : Expr)

/-- Statement nodes.  A `varDecl` carries one declarator (multi-declarator
declarations are modeled as consecutive statements, which the per-declarator
visitors cannot distinguish). -/
inductive Stmt where
  | importDecl (source : String) (specs : List ImportSpec)
  | varDecl (kind : String) (pid : Pat) (init : Option Expr)
  | exprStmt (e : Expr)
  | returnStmt (arg : Option Expr)
  | funcDecl (fid : Option String) (params : List String) (body : List Stmt)
end

/-- A parsed module. -/
abbrev Program := List Stmt

/-- `node.callee.name`: only an identifier node exposes a `name`. -/
def Expr.calleeName : Expr → Option String
  | .ident n => some n
  | _ => none

/-! ## The useState-initialization analyzer (analyze-usestate script)

`analyzeFile` walks the tree with an `ImportDeclaration` visitor that records
whether `useState` is imported from `'react'` and a `CallExpression` visitor
that classifies the initializer of each `useState(...)` call. -/

/-- One reported instance of a complex `useState` initialization.  The
script's record also carries `lineNumber` (from `node.loc`) and
`initialization` (a raw source-text slice `content.slice(start, end)`); both
come from parser metadata outside the tree model and are omitted here. -/
structure Finding where
  componentName : String
  variableName : String
  filePath : String
  reason : String
deriving DecidableEq, Repr

/-- The classifier chain of the `CallExpression` visitor, evaluated in source
order with the first match winning:
function literal, ternary, logical, call, object with at least one property,
array with at least one element, binary expression.  The explicit
skip branch (boolean literal, empty string, numeric zero, null literal,
identifier `undefined`) and the final fall-through both leave `isComplex`
false, so both yield no classification. -/
def classifyInit : Expr → Option String
  | .arrowFn _ => some "Function initialization"
  | .fnExpr _ _ => some "Function initialization"
  | .cond _ _ _ => some "Ternary operator"
  | .logical _ _ _ => some "Logical expression"
  | .call _ _ => some "Function call"
  | .objectE props => if 0 < props.length then some "Complex object" else none
  | .arrayE elems => if 0 < elems.length then some "Non-empty array" else none
  | .binary _ _ _ => some "Binary expression"
  | _ => none

/-- The `ImportDeclaration` visitor's condition: the declaration imports from
`'react'` and one of its specifiers has `imported.name === 'useState'`
(a default import has no `imported`). -/
def importSetsUseState (source : String) (specs : List ImportSpec) : Bool :=
  source = "react" && specs.any fun s =>
    match s with
    | .named imported _ => imported = "useState"
    | .defaultSpec _ => false

/-- `findComponentName`: walking outward from a node, the first enclosing
function that is named — directly (`node.id`) or as the right-hand side of a
variable declarator — names the component; anonymous functions that are not
declarator initializers are walked past.  We maintain this incrementally:
entering a function updates the ambient name.  When the declarator pattern is
an array pattern, `parent.id.name` evaluates to JavaScript `undefined`, which
the script stores as the component name; we render it as the string
"undefined". -/
def fnCompName (outer : String) (fid : Option String) (parentPat : Option Pat) :
    String :=
  match fid with
  | some n => n
  | none =>
    match parentPat with
    | some (Pat.id n) => n
    | some (Pat.arrayPat _) => "undefined"
    | none => outer

/-- `path.parent.id.elements[0]?.name || 'unknown'` when the call's parent is
a variable declarator with an array pattern, else the empty string. -/
def declaredVarName (parentPat : Option Pat) : String :=
  match parentPat with
  | some (Pat.arrayPat elements) => (elements.head?.join).getD "unknown"
  | _ => ""

/-- The body of the analyzer's `CallExpression` visitor once the callee has
matched `useState`: absent first argument returns early; otherwise the
initializer is classified and at most one finding is produced for the site. -/
def visitUseStateCall (componentName : String) (parentPat : Option Pat)
    (filePath : String) (args : List Expr) : Option Finding :=
  match args.head? with
  | none => none
  | some initialValue =>
    match classifyInit initialValue with
    | some reason =>
      some { componentName, variableName := declaredVarName parentPat,
             filePath, reason }
    | none => none

/-- Traversal state of the analyzer: the import flag and the findings
collected so far (in visit order). -/
structure AnalyzerState where
  useStateImported : Bool
  findings : List Finding
deriving DecidableEq, Repr

mutual
/-- Pre-order walk of an expression for the analyzer.  `cn` is the ambient
component name, `pp` the pattern of the immediately enclosing variable
declarator (when the expression is its initializer). -/
def anExpr (fp cn : String) (pp : Option Pat) (st : AnalyzerState) :
    Expr → AnalyzerState
  | .ident _ => st
  | .boolLit _ => st
  | .strLit _ => st
  | .numLit _ => st
  | .nullLit => st
  | .arrowFn body => anBody fp (fnCompName cn none pp) st body
  | .fnExpr fid body => anStmts fp (fnCompName cn fid pp) st body
  | .cond t c a =>
      anExpr fp cn none (anExpr fp cn none (anExpr fp cn none st t) c) a
  | .logical _ l r => anExpr fp cn none (anExpr fp cn none st l) r
  | .call callee args =>
      let st1 :=
        if st.useStateImported && callee.calleeName == some "useState" then
          match visitUseStateCall cn pp fp args with
          | some f => { st with findings := st.findings ++ [f] }
          | none => st
        else st
      anExprs fp cn (anExpr fp cn none st1 callee) args
  | .member obj _ => anExpr fp cn none st obj
  | .assign _ tgt v => anExpr fp cn none (anExpr fp cn none st tgt) v
  | .objectE props => anProps fp cn st props
  | .arrayE elems => anExprs fp cn st elems
  | .binary _ l r => anExpr fp cn none (anExpr fp cn none st l) r
  | .jsx _ attrs children _ => anExprs fp cn (anProps fp cn st attrs) children
  | .jsxFragment children => anExprs fp cn st children

def anExprs (fp cn : String) (st : AnalyzerState) : List Expr → AnalyzerState
  | [] => st
  | e :: es => anExprs fp cn (anExpr fp cn none st e) es

def anProps (fp cn : String) (st : AnalyzerState) :
    List (String × Expr) → AnalyzerState
  | [] => st
  | (_, e) :: ps => anProps fp cn (anExpr fp cn none st e) ps

def anBody (fp cn : String) (st : AnalyzerState) : FnBody → AnalyzerState
  | .block ss => anStmts fp cn st ss
  | .expr e => anExpr fp cn none st e

def anStmt (fp cn : String) (st : AnalyzerState) : Stmt → AnalyzerState
  | .importDecl source specs =>
      if importSetsUseState source specs then
        { st with useStateImported := true }
      else st
  | .varDecl _ pid init =>
      match init with
      | some e => anExpr fp cn (some pid) st e
      | none => st
  | .exprStmt e => anExpr fp cn none st e
  | .returnStmt (some e) => anExpr fp cn none st e
  | .returnStmt none => st
  | .funcDecl fid _ body => anStmts fp (fnCompName cn fid none) st body

def anStmts (fp cn : String) (st : AnalyzerState) : List Stmt → AnalyzerState
  | [] => st
  | s :: ss => anStmts fp cn (anStmt fp cn st s) ss
end

/-- `analyzeFile` on an already-parsed module: single pass, flag starts
false, findings start empty, ambient component name starts at the
`'Unknown Component'` fallback. -/
def analyzeProgram (filePath : String) (prog : Program) : List Finding :=
  (anStmts filePath "Unknown Component"
    { useStateImported := false, findings := [] } prog).findings

/-! Scan: does a subtree contain an import declaration that would set the
`useStateImported` flag?  (In JavaScript imports are top-level only, but the
scan mirrors the visitor, which fires wherever such a node sits.) -/

mutual
def hasUSImportE : Expr → Bool
  | .ident _ => false
  | .boolLit _ => false
  | .strLit _ => false
  | .numLit _ => false
  | .nullLit => false
  | .arrowFn body => hasUSImportB body
  | .fnExpr _ body => hasUSImportSs body
  | .cond t c a => hasUSImportE t || hasUSImportE c || hasUSImportE a
  | .logical _ l r => hasUSImportE l || hasUSImportE r
  | .call callee args => hasUSImportE callee || hasUSImportEs args
  | .member obj _ => hasUSImportE obj
  | .assign _ tgt v => hasUSImportE tgt || hasUSImportE v
  | .objectE props => hasUSImportPs props
  | .arrayE elems => hasUSImportEs elems
  | .binary _ l r => hasUSImportE l || hasUSImportE r
  | .jsx _ attrs children _ => hasUSImportPs attrs || hasUSImportEs children
  | .jsxFragment children => hasUSImportEs children

def hasUSImportEs : List Expr → Bool
  | [] => false
  | e :: es => hasUSImportE e || hasUSImportEs es

def hasUSImportPs : List (String × Expr) → Bool
  | [] => false
  | (_, e) :: ps => hasUSImportE e || hasUSImportPs ps

def hasUSImportB : FnBody → Bool
  | .block ss => hasUSImportSs ss
  | .expr e => hasUSImportE e

def hasUSImportS : Stmt → Bool
  | .importDecl source specs => importSetsUseState source specs
  | .varDecl _ _ (some e) => hasUSImportE e
  | .varDecl _ _ none => false
  | .exprStmt e => hasUSImportE e
  | .returnStmt (some e) => hasUSImportE e
  | .returnStmt none => false
  | .funcDecl _ _ body => hasUSImportSs body

def hasUSImportSs : List Stmt → Bool
  | [] => false
  | s :: ss => hasUSImportS s || hasUSImportSs ss
end

/-! With the flag still false and no matching import in sight, every analyzer
visitor leaves the state untouched. -/

mutual
theorem anExpr_no_import (fp cn : String) (pp : Option Pat)
    (st : AnalyzerState) (h : st.useStateImported = false) :
    ∀ e : Expr, hasUSImportE e = false → anExpr fp cn pp st e = st
  | .ident _, _ => rfl
  | .boolLit _, _ => rfl
  | .strLit _, _ => rfl
  | .numLit _, _ => rfl
  | .nullLit, _ => rfl
  | .arrowFn body, hn => by
      simp only [anExpr]
      exact anBody_no_import fp _ st h body (by simpa [hasUSImportE] using hn)
  | .fnExpr fid body, hn => by
      simp only [anExpr]
      exact anStmts_no_import fp _ st h body (by simpa [hasUSImportE] using hn)
  | .cond t c a, hn => by
      simp only [hasUSImportE, Bool.or_eq_false_iff] at hn
      simp only [anExpr, anExpr_no_import fp cn none st h t hn.1.1,
        anExpr_no_import fp cn none st h c hn.1.2,
        anExpr_no_import fp cn none st h a hn.2]
  | .logical op l r, hn => by
      simp only [hasUSImportE, Bool.or_eq_false_iff] at hn
      simp only [anExpr, anExpr_no_import fp cn none st h l hn.1,
        anExpr_no_import fp cn none st h r hn.2]
  | .call callee args, hn => by
      simp only [hasUSImportE, Bool.or_eq_false_iff] at hn
      have hcond : (st.useStateImported && callee.calleeName == some "useState")
          = false := by simp [h]
      simp only [anExpr, hcond, Bool.false_eq_true, if_false]
      rw [anExpr_no_import fp cn none st h callee hn.1]
      exact anExprs_no_import fp cn st h args hn.2
  | .member obj _, hn => by
      simp only [anExpr]
      exact anExpr_no_import fp cn none st h obj (by simpa [hasUSImportE] using hn)
  | .assign _ tgt v, hn => by
      simp only [hasUSImportE, Bool.or_eq_false_iff] at hn
      simp only [anExpr, anExpr_no_import fp cn none st h tgt hn.1,
        anExpr_no_import fp cn none st h v hn.2]
  | .objectE props, hn => by
      simp only [anExpr]
      exact anProps_no_import fp cn st h props (by simpa [hasUSImportE] using hn)
  | .arrayE elems, hn => by
      simp only [anExpr]
      exact anExprs_no_import fp cn st h elems (by simpa [hasUSImportE] using hn)
  | .binary _ l r, hn => by
      simp only [hasUSImportE, Bool.or_eq_false_iff] at hn
      simp only [anExpr, anExpr_no_import fp cn none st h l hn.1,
        anExpr_no_import fp cn none st h r hn.2]
  | .jsx _ attrs children _, hn => by
      simp only [hasUSImportE, Bool.or_eq_false_iff] at hn
      simp only [anExpr]
      rw [anProps_no_import fp cn st h attrs hn.1]
      exact anExprs_no_import fp cn st h children hn.2
  | .jsxFragment children, hn => by
      simp only [anExpr]
      exact anExprs_no_import fp cn st h children (by simpa [hasUSImportE] using hn)

theorem anExprs_no_import (fp cn : String) (st : AnalyzerState)
    (h : st.useStateImported = false) :
    ∀ es : List Expr, hasUSImportEs es = false → anExprs fp cn st es = st
  | [], _ => rfl
  | e :: es, hn => by
      simp only [hasUSImportEs, Bool.or_eq_false_iff] at hn
      simp only [anExprs, anExpr_no_import fp cn none st h e hn.1]
      exact anExprs_no_import fp cn st h es hn.2

theorem anProps_no_import (fp cn : String) (st : AnalyzerState)
    (h : st.useStateImported = false) :
    ∀ ps : List (String × Expr), hasUSImportPs ps = false →
      anProps fp cn st ps = st
  | [], _ => rfl
  | (_, e) :: ps, hn => by
      simp only [hasUSImportPs, Bool.or_eq_false_iff] at hn
      simp only [anProps, anExpr_no_import fp cn none st h e hn.1]
      exact anProps_no_import fp cn st h ps hn.2

theorem anBody_no_import (fp cn : String) (st : AnalyzerState)
    (h : st.useStateImported = false) :
    ∀ b : FnBody, hasUSImportB b = false → anBody fp cn st b = st
  | .block ss, hn => anStmts_no_import fp cn st h ss hn
  | .expr e, hn => anExpr_no_import fp cn none st h e hn

theorem anStmt_no_import (fp cn : String) (st : AnalyzerState)
    (h : st.useStateImported = false) :
    ∀ s : Stmt, hasUSImportS s = false → anStmt fp cn st s = st
  | .importDecl source specs, hn => by
      simp only [hasUSImportS] at hn
      simp [anStmt, hn]
  | .varDecl _ _ (some e), hn => anExpr_no_import fp cn _ st h e hn
  | .varDecl _ _ none, _ => rfl
  | .exprStmt e, hn => anExpr_no_import fp cn none st h e hn
  | .returnStmt (some e), hn => anExpr_no_import fp cn none st h e hn
  | .returnStmt none, _ => rfl
  | .funcDecl fid _ body, hn => anStmts_no_import fp _ st h body hn

theorem anStmts_no_import (fp cn : String) (st : AnalyzerState)
    (h : st.useStateImported = false) :
    ∀ ss : List Stmt, hasUSImportSs ss = false → anStmts fp cn st ss = st
  | [], _ => rfl
  | s :: ss, hn => by
      simp only [hasUSImportSs, Bool.or_eq_false_iff] at hn
      simp only [anStmts, anStmt_no_import fp cn st h s hn.1]
      exact anStmts_no_import fp cn st h ss hn.2
end

/-! Canonical single-site file: `import { useState } from 'react'` followed by
a component `App` declaring `const [value, setValue] = useState(init)`. -/

def mkUseStateFile (init : Expr) : Program :=
  [ .importDecl "react" [.named "useState" "useState"],
    .funcDecl (some "App") []
      [ .varDecl "const" (.arrayPat [some "value", some "setValue"])
          (some (.call (.ident "useState") [init])) ] ]

/-- The finding the canonical file yields for classification `reason`. -/
def appFinding (reason : String) : Finding :=
  { componentName := "App", variableName := "value", filePath := "App.jsx",
    reason }

/-- C1: every complex initializer shape — function literal, ternary, logical,
call, object with at least one property, array with at least one element,
binary — classifies to its own label (first matching test of the source-order
chain `classifyInit` wins), the call-site visitor then emits exactly one
finding carrying that label, and on the canonical one-site file the whole
analysis produces exactly that one finding. -/
theorem c1_complex_initializer_one_finding_per_shape :
    (∀ cn pp fp (body : FnBody) rest,
      visitUseStateCall cn pp fp (Expr.arrowFn body :: rest) =
        some ⟨cn, declaredVarName pp, fp, "Function initialization"⟩) ∧
    (∀ cn pp fp fid (body : List Stmt) rest,
      visitUseStateCall cn pp fp (Expr.fnExpr fid body :: rest) =
        some ⟨cn, declaredVarName pp, fp, "Function initialization"⟩) ∧
    (∀ cn pp fp t c a rest,
      visitUseStateCall cn pp fp (Expr.cond t c a :: rest) =
        some ⟨cn, declaredVarName pp, fp, "Ternary operator"⟩) ∧
    (∀ cn pp fp op l r rest,
      visitUseStateCall cn pp fp (Expr.logical op l r :: rest) =
        some ⟨cn, declaredVarName pp, fp, "Logical expression"⟩) ∧
    (∀ cn pp fp callee args rest,
      visitUseStateCall cn pp fp (Expr.call callee args :: rest) =
        some ⟨cn, declaredVarName pp, fp, "Function call"⟩) ∧
    (∀ cn pp fp p ps rest,
      visitUseStateCall cn pp fp (Expr.objectE (p :: ps) :: rest) =
        some ⟨cn, declaredVarName pp, fp, "Complex object"⟩) ∧
    (∀ cn pp fp e es rest,
      visitUseStateCall cn pp fp (Expr.arrayE (e :: es) :: rest) =
        some ⟨cn, declaredVarName pp, fp, "Non-empty array"⟩) ∧
    (∀ cn pp fp op l r rest,
      visitUseStateCall cn pp fp (Expr.binary op l r :: rest) =
        some ⟨cn, declaredVarName pp, fp, "Binary expression"⟩) ∧
    analyzeProgram "App.jsx"
        (mkUseStateFile (.arrowFn (.expr (.call (.ident "x") [])))) =
      [appFinding "Function initialization"] ∧
    analyzeProgram "App.jsx"
        (mkUseStateFile (.cond (.ident "a") (.ident "b") (.ident "c"))) =
      [appFinding "Ternary operator"] ∧
    analyzeProgram "App.jsx"
        (mkUseStateFile (.logical "||" (.ident "a") (.ident "b"))) =
      [appFinding "Logical expression"] ∧
    analyzeProgram "App.jsx"
        (mkUseStateFile (.call (.ident "getData") [])) =
      [appFinding "Function call"] ∧
    analyzeProgram "App.jsx"
        (mkUseStateFile (.objectE [("a", .numLit 1)])) =
      [appFinding "Complex object"] ∧
    analyzeProgram "App.jsx" (mkUseStateFile (.arrayE [.numLit 1])) =
      [appFinding "Non-empty array"] ∧
    analyzeProgram "App.jsx"
        (mkUseStateFile (.binary "+" (.ident "a") (.numLit 1))) =
      [appFinding "Binary expression"] :=
  ⟨fun _ _ _ _ _ => rfl, fun _ _ _ _ _ _ => rfl, fun _ _ _ _ _ _ _ => rfl,
   fun _ _ _ _ _ _ _ => rfl, fun _ _ _ _ _ _ => rfl,
   by intros; simp [visitUseStateCall, classifyInit],
   by intros; simp [visitUseStateCall, classifyInit],
   fun _ _ _ _ _ _ _ => rfl,
   by decide, by decide, by decide, by decide, by decide, by decide, by decide⟩

/-- C3: trivial initializers — any boolean literal, the empty string, numeric
zero, the null literal, the identifier `undefined` — and the empty object and
empty array literals (excluded by the `≥ 1` guards) each produce no finding:
the visitor returns nothing for the site, and the canonical one-site file
yields zero findings. -/
theorem c3_trivial_initializers_no_finding :
    (∀ cn pp fp b rest,
      visitUseStateCall cn pp fp (Expr.boolLit b :: rest) = none) ∧
    (∀ cn pp fp rest,
      visitUseStateCall cn pp fp (Expr.strLit "" :: rest) = none) ∧
    (∀ cn pp fp rest,
      visitUseStateCall cn pp fp (Expr.numLit 0 :: rest) = none) ∧
    (∀ cn pp fp rest,
      visitUseStateCall cn pp fp (Expr.nullLit :: rest) = none) ∧
    (∀ cn pp fp rest,
      visitUseStateCall cn pp fp (Expr.ident "undefined" :: rest) = none) ∧
    (∀ cn pp fp rest,
      visitUseStateCall cn pp fp (Expr.objectE [] :: rest) = none) ∧
    (∀ cn pp fp rest,
      visitUseStateCall cn pp fp (Expr.arrayE [] :: rest) = none) ∧
    analyzeProgram "App.jsx" (mkUseStateFile (.boolLit false)) = [] ∧
    analyzeProgram "App.jsx" (mkUseStateFile (.boolLit true)) = [] ∧
    analyzeProgram "App.jsx" (mkUseStateFile (.strLit "")) = [] ∧
    analyzeProgram "App.jsx" (mkUseStateFile (.numLit 0)) = [] ∧
    analyzeProgram "App.jsx" (mkUseStateFile .nullLit) = [] ∧
    analyzeProgram "App.jsx" (mkUseStateFile (.ident "undefined")) = [] ∧
    analyzeProgram "App.jsx" (mkUseStateFile (.objectE [])) = [] ∧
    analyzeProgram "App.jsx" (mkUseStateFile (.arrayE [])) = [] :=
  ⟨fun _ _ _ _ _ => rfl, fun _ _ _ _ => rfl, fun _ _ _ _ => rfl,
   fun _ _ _ _ => rfl, fun _ _ _ _ => rfl, fun _ _ _ _ => rfl,
   fun _ _ _ _ => rfl,
   by decide, by decide, by decide, by decide, by decide, by decide,
   by decide, by decide⟩

/-! ## The useState setter logger (part_001)

One pass with three visitors: `ImportDeclaration` sets the import flag,
`VariableDeclarator` records state/setter pairs from `useState` destructures,
`CallExpression` inserts a `console.log` before each tracked setter call and
marks the file modified. -/

/-- Traversal state of the setter logger: import flag, the setter-name →
state-name map, and whether any mutation occurred. -/
structure SetterState where
  useStateImported : Bool
  stateSetters : List (String × String)
  modified : Bool
deriving DecidableEq, Repr

/-- `Map.set`: overwrite an existing key or append a new entry. -/
def mapSet (m : List (String × String)) (k v : String) :
    List (String × String) :=
  match m with
  | [] => [(k, v)]
  | (k', v') :: rest =>
      if k' = k then (k, v) :: rest else (k', v') :: mapSet rest k v

/-- The `VariableDeclarator` visitor: when the flag is set and the declારator
initializes from a bare `useState(...)` call into an array pattern whose first
two elements are present, record setter → state. -/
def visitSetterDecl (st : SetterState) (pid : Pat) (init : Option Expr) :
    SetterState :=
  if st.useStateImported then
    match init, pid with
    | some (.call (.ident "useState") _),
      .arrayPat (some state :: some setter :: _) =>
        { st with stateSetters := mapSet st.stateSetters setter state }
    | _, _ => st
  else st

/-- The synthesized `console.log('[component] state updated to:', arg0)`
statement inserted before a setter call.  The script always passes
`path.node.arguments[0]`; a zero-argument setter call would embed JavaScript
`undefined` there (and crash the serializer), which we model by omitting the
argument. -/
def setterLog (componentName stateName : String) (args : List Expr) : Stmt :=
  .exprStmt (.call (.member (.ident "console") "log")
    (.strLit ("[" ++ componentName ++ "] " ++ stateName ++ " updated to:")
      :: args.take 1))

/-- The `CallExpression` visitor's test: an identifier callee found in the
setter map marks the file modified. -/
def setterCallFlag (st : SetterState) : Expr → SetterState
  | .ident n =>
      if (st.stateSetters.lookup n).isSome then { st with modified := true }
      else st
  | _ => st

mutual
/-- Expression walk of the setter logger.  A setter call that is not the
expression of an `ExpressionStatement` still fires the visitor and marks the
file modified; Babel hoists its inserted statement via
`replaceExpressionWithStatements`, a rewriting no claim exercises and which we
do not reproduce (the node is left in place). -/
def msExpr (cn : String) (pp : Option Pat) (st : SetterState) :
    Expr → Expr × SetterState
  | .ident n => (.ident n, st)
  | .boolLit b => (.boolLit b, st)
  | .strLit s => (.strLit s, st)
  | .numLit n => (.numLit n, st)
  | .nullLit => (.nullLit, st)
  | .arrowFn body =>
      let r := msBody (fnCompName cn none pp) st body
      (.arrowFn r.1, r.2)
  | .fnExpr fid body =>
      let r := msStmts (fnCompName cn fid pp) st body
      (.fnExpr fid r.1, r.2)
  | .cond t c a =>
      let rt := msExpr cn none st t
      let rc := msExpr cn none rt.2 c
      let ra := msExpr cn none rc.2 a
      (.cond rt.1 rc.1 ra.1, ra.2)
  | .logical op l r =>
      let rl := msExpr cn none st l
      let rr := msExpr cn none rl.2 r
      (.logical op rl.1 rr.1, rr.2)
  | .call callee args =>
      let st1 := setterCallFlag st callee
      let rc := msExpr cn none st1 callee
      let ra := msExprs cn rc.2 args
      (.call rc.1 ra.1, ra.2)
  | .member obj prop =>
      let r := msExpr cn none st obj
      (.member r.1 prop, r.2)
  | .assign op tgt v =>
      let rt := msExpr cn none st tgt
      let rv := msExpr cn none rt.2 v
      (.assign op rt.1 rv.1, rv.2)
  | .objectE props =>
      let r := msProps cn st props
      (.objectE r.1, r.2)
  | .arrayE elems =>
      let r := msExprs cn st elems
      (.arrayE r.1, r.2)
  | .binary op l r =>
      let rl := msExpr cn none st l
      let rr := msExpr cn none rl.2 r
      (.binary op rl.1 rr.1, rr.2)
  | .jsx tag attrs children sc =>
      let ra := msProps cn st attrs
      let rc := msExprs cn ra.2 children
      (.jsx tag ra.1 rc.1 sc, rc.2)
  | .jsxFragment children =>
      let r := msExprs cn st children
      (.jsxFragment r.1, r.2)

def msExprs (cn : String) (st : SetterState) :
    List Expr → List Expr × SetterState
  | [] => ([], st)
  | e :: es =>
      let r := msExpr cn none st e
      let rs := msExprs cn r.2 es
      (r.1 :: rs.1, rs.2)

def msProps (cn : String) (st : SetterState) :
    List (String × Expr) → List (String × Expr) × SetterState
  | [] => ([], st)
  | (k, e) :: ps =>
      let r := msExpr cn none st e
      let rs := msProps cn r.2 ps
      ((k, r.1) :: rs.1, rs.2)

def msBody (cn : String) (st : SetterState) : FnBody → FnBody × SetterState
  | .block ss =>
      let r := msStmts cn st ss
      (.block r.1, r.2)
  | .expr e =>
      let r := msExpr cn none st e
      (.expr r.1, r.2)

/-- Statement walk.  A setter call in statement position gets the synthesized
log statement inserted immediately before it (`path.insertBefore` lands in
the enclosing statement list) and sets `modified`. -/
def msStmt (cn : String) (st : SetterState) : Stmt → List Stmt × SetterState
  | .importDecl source specs =>
      ([.importDecl source specs],
        if importSetsUseState source specs then
          { st with useStateImported := true }
        else st)
  | .varDecl kind pid init =>
      let st1 := visitSetterDecl st pid init
      match init with
      | some e =>
          let r := msExpr cn (some pid) st1 e
          ([.varDecl kind pid (some r.1)], r.2)
      | none => ([.varDecl kind pid none], st1)
  | .exprStmt (.call (.ident n) args) =>
      (match (st.stateSetters.lookup n) with
       | some stateName =>
          let st1 := { st with modified := true }
          let ra := msExprs cn st1 args
          ([setterLog cn stateName ra.1,
            .exprStmt (.call (.ident n) ra.1)], ra.2)
       | none =>
          -- the visitor does not match; the walk of the call node reduces to
          -- walking its arguments (the callee is a bare identifier)
          let ra := msExprs cn st args
          ([.exprStmt (.call (.ident n) ra.1)], ra.2))
  | .exprStmt e =>
      let r := msExpr cn none st e
      ([.exprStmt r.1], r.2)
  | .returnStmt (some e) =>
      let r := msExpr cn none st e
      ([.returnStmt (some r.1)], r.2)
  | .returnStmt none => ([.returnStmt none], st)
  | .funcDecl fid params body =>
      let r := msStmts (fnCompName cn fid none) st body
      ([.funcDecl fid params r.1], r.2)

def msStmts (cn : String) (st : SetterState) :
    List Stmt → List Stmt × SetterState
  | [] => ([], st)
  | s :: ss =>
      let r := msStmt cn st s
      let rs := msStmts cn r.2 ss
      (r.1 ++ rs.1, rs.2)
end

/-- The setter logger on an already-parsed module: the rewritten module and
the `modified` flag that decides the write-back. -/
def mutateSetters (prog : Program) : Program × Bool :=
  let r := msStmts "Unknown Component"
    { useStateImported := false, stateSetters := [], modified := false } prog
  (r.1, r.2.modified)

/-! With the flag still false, the setter map still empty and no matching
react useState specifier in sight, every setter-logger visitor is the
identity. -/

theorem setterCallFlag_empty (st : SetterState) (h2 : st.stateSetters = [])
    (c : Expr) : setterCallFlag st c = st := by
  cases c <;> simp [setterCallFlag, h2]

mutual
theorem msExpr_no_import (cn : String) (pp : Option Pat) (st : SetterState)
    (h1 : st.useStateImported = false) (h2 : st.stateSetters = []) :
    ∀ e : Expr, hasUSImportE e = false → msExpr cn pp st e = (e, st)
  | .ident _, _ => rfl
  | .boolLit _, _ => rfl
  | .strLit _, _ => rfl
  | .numLit _, _ => rfl
  | .nullLit, _ => rfl
  | .arrowFn body, hn => by
      simp only [msExpr,
        msBody_no_import _ st h1 h2 body (by simpa [hasUSImportE] using hn)]
  | .fnExpr fid body, hn => by
      simp only [msExpr,
        msStmts_no_import _ st h1 h2 body (by simpa [hasUSImportE] using hn)]
  | .cond t c a, hn => by
      simp only [hasUSImportE, Bool.or_eq_false_iff] at hn
      simp only [msExpr, msExpr_no_import cn none st h1 h2 t hn.1.1,
        msExpr_no_import cn none st h1 h2 c hn.1.2,
        msExpr_no_import cn none st h1 h2 a hn.2]
  | .logical op l r, hn => by
      simp only [hasUSImportE, Bool.or_eq_false_iff] at hn
      simp only [msExpr, msExpr_no_import cn none st h1 h2 l hn.1,
        msExpr_no_import cn none st h1 h2 r hn.2]
  | .call callee args, hn => by
      simp only [hasUSImportE, Bool.or_eq_false_iff] at hn
      simp only [msExpr, setterCallFlag_empty st h2 callee,
        msExpr_no_import cn none st h1 h2 callee hn.1,
        msExprs_no_import cn st h1 h2 args hn.2]
  | .member obj _, hn => by
      simp only [msExpr,
        msExpr_no_import cn none st h1 h2 obj (by simpa [hasUSImportE] using hn)]
  | .assign op tgt v, hn => by
      simp only [hasUSImportE, Bool.or_eq_false_iff] at hn
      simp only [msExpr, msExpr_no_import cn none st h1 h2 tgt hn.1,
        msExpr_no_import cn none st h1 h2 v hn.2]
  | .objectE props, hn => by
      simp only [msExpr,
        msProps_no_import cn st h1 h2 props (by simpa [hasUSImportE] using hn)]
  | .arrayE elems, hn => by
      simp only [msExpr,
        msExprs_no_import cn st h1 h2 elems (by simpa [hasUSImportE] using hn)]
  | .binary op l r, hn => by
      simp only [hasUSImportE, Bool.or_eq_false_iff] at hn
      simp only [msExpr, msExpr_no_import cn none st h1 h2 l hn.1,
        msExpr_no_import cn none st h1 h2 r hn.2]
  | .jsx tag attrs children sc, hn => by
      simp only [hasUSImportE, Bool.or_eq_false_iff] at hn
      simp only [msExpr, msProps_no_import cn st h1 h2 attrs hn.1,
        msExprs_no_import cn st h1 h2 children hn.2]
  | .jsxFragment children, hn => by
      simp only [msExpr,
        msExprs_no_import cn st h1 h2 children (by simpa [hasUSImportE] using hn)]

theorem msExprs_no_import (cn : String) (st : SetterState)
    (h1 : st.useStateImported = false) (h2 : st.stateSetters = []) :
    ∀ es : List Expr, hasUSImportEs es = false → msExprs cn st es = (es, st)
  | [], _ => rfl
  | e :: es, hn => by
      simp only [hasUSImportEs, Bool.or_eq_false_iff] at hn
      simp only [msExprs, msExpr_no_import cn none st h1 h2 e hn.1,
        msExprs_no_import cn st h1 h2 es hn.2]

theorem msProps_no_import (cn : String) (st : SetterState)
    (h1 : st.useStateImported = false) (h2 : st.stateSetters = []) :
    ∀ ps : List (String × Expr), hasUSImportPs ps = false →
      msProps cn st ps = (ps, st)
  | [], _ => rfl
  | (k, e) :: ps, hn => by
      simp only [hasUSImportPs, Bool.or_eq_false_iff] at hn
      simp only [msProps, msExpr_no_import cn none st h1 h2 e hn.1,
        msProps_no_import cn st h1 h2 ps hn.2]

theorem msBody_no_import (cn : String) (st : SetterState)
    (h1 : st.useStateImported = false) (h2 : st.stateSetters = []) :
    ∀ b : FnBody, hasUSImportB b = false → msBody cn st b = (b, st)
  | .block ss, hn => by
      simp only [msBody, msStmts_no_import cn st h1 h2 ss hn]
  | .expr e, hn => by
      simp only [msBody, msExpr_no_import cn none st h1 h2 e hn]

theorem msStmt_no_import (cn : String) (st : SetterState)
    (h1 : st.useStateImported = false) (h2 : st.stateSetters = []) :
    ∀ s : Stmt, hasUSImportS s = false → msStmt cn st s = ([s], st)
  | .importDecl source specs, hn => by
      simp only [hasUSImportS] at hn
      simp [msStmt, hn]
  | .varDecl kind pid (some e), hn => by
      have hv : visitSetterDecl st pid (some e) = st := by
        simp [visitSetterDecl, h1]
      simp only [msStmt, hv, msExpr_no_import cn (some pid) st h1 h2 e hn]
  | .varDecl kind pid none, hn => by
      have hv : visitSetterDecl st pid none = st := by
        simp [visitSetterDecl, h1]
      simp only [msStmt, hv]
  | .exprStmt e, hn => by
      have he : hasUSImportE e = false := hn
      have hme := msExpr_no_import cn none st h1 h2 e he
      cases e with
      | call callee args =>
          have hargs : hasUSImportEs args = false := by
            simp only [hasUSImportE, Bool.or_eq_false_iff] at he
            exact he.2
          cases callee <;>
            simp only [msStmt, hme, h2, List.lookup_nil,
              msExprs_no_import cn st h1 h2 args hargs]
      | ident n => simp only [msStmt, hme]
      | boolLit b => simp only [msStmt, hme]
      | strLit s => simp only [msStmt, hme]
      | numLit n => simp only [msStmt, hme]
      | nullLit => simp only [msStmt, hme]
      | arrowFn body => simp only [msStmt, hme]
      | fnExpr fid body => simp only [msStmt, hme]
      | cond t c a => simp only [msStmt, hme]
      | logical op l r => simp only [msStmt, hme]
      | member obj prop => simp only [msStmt, hme]
      | assign op tgt v => simp only [msStmt, hme]
      | objectE props => simp only [msStmt, hme]
      | arrayE elems => simp only [msStmt, hme]
      | binary op l r => simp only [msStmt, hme]
      | jsx tag attrs children sc => simp only [msStmt, hme]
      | jsxFragment children => simp only [msStmt, hme]
  | .returnStmt (some e), hn => by
      simp only [msStmt, msExpr_no_import cn none st h1 h2 e hn]
  | .returnStmt none, _ => rfl
  | .funcDecl fid params body, hn => by
      simp only [msStmt, msStmts_no_import _ st h1 h2 body hn]

theorem msStmts_no_import (cn : String) (st : SetterState)
    (h1 : st.useStateImported = false) (h2 : st.stateSetters = []) :
    ∀ ss : List Stmt, hasUSImportSs ss = false → msStmts cn st ss = (ss, st)
  | [], _ => rfl
  | s :: ss, hn => by
      simp only [hasUSImportSs, Bool.or_eq_false_iff] at hn
      simp only [msStmts, msStmt_no_import cn st h1 h2 s hn.1,
        msStmts_no_import cn st h1 h2 ss hn.2, List.singleton_append]
end

/-! Counting inserted log statements: a statement is a log statement when it
is an expression statement whose expression is a `console.log(...)` call. -/

def isConsoleLogCall : Expr → Bool
  | .call (.member (.ident "console") "log") _ => true
  | _ => false

mutual
def logsE : Expr → Nat
  | .ident _ => 0
  | .boolLit _ => 0
  | .strLit _ => 0
  | .numLit _ => 0
  | .nullLit => 0
  | .arrowFn body => logsB body
  | .fnExpr _ body => logsSs body
  | .cond t c a => logsE t + logsE c + logsE a
  | .logical _ l r => logsE l + logsE r
  | .call callee args => logsE callee + logsEs args
  | .member obj _ => logsE obj
  | .assign _ tgt v => logsE tgt + logsE v
  | .objectE props => logsPs props
  | .arrayE elems => logsEs elems
  | .binary _ l r => logsE l + logsE r
  | .jsx _ attrs children _ => logsPs attrs + logsEs children
  | .jsxFragment children => logsEs children

def logsEs : List Expr → Nat
  | [] => 0
  | e :: es => logsE e + logsEs es

def logsPs : List (String × Expr) → Nat
  | [] => 0
  | (_, e) :: ps => logsE e + logsPs ps

def logsB : FnBody → Nat
  | .block ss => logsSs ss
  | .expr e => logsE e

def logsS : Stmt → Nat
  | .importDecl _ _ => 0
  | .varDecl _ _ (some e) => logsE e
  | .varDecl _ _ none => 0
  | .exprStmt e => (if isConsoleLogCall e then 1 else 0) + logsE e
  | .returnStmt (some e) => logsE e
  | .returnStmt none => 0
  | .funcDecl _ _ body => logsSs body

def logsSs : List Stmt → Nat
  | [] => 0
  | s :: ss => logsS s + logsSs ss
end

/-- A component with one `useState` destructure (initial value `i`) and one
statement-position setter call (argument `a`): the input family for the
idempotence claim about the setter logger. -/
def counterComponentAt (i a : Int) : Program :=
  [ .importDecl "react" [.named "useState" "useState"],
    .funcDecl (some "Counter") []
      [ .varDecl "const" (.arrayPat [some "count", some "setCount"])
          (some (.call (.ident "useState") [.numLit i])),
        .exprStmt (.call (.ident "setCount") [.numLit a]) ] ]

def counterComponent : Program := counterComponentAt 0 1

/-- C4 counterexample: running the setter-logging mutation on the one-setter
counter component inserts one log statement; re-running it on the once-mutated
output inserts another (two log statements in total), so the second
application does not leave the file's log statements unchanged. -/
theorem c4_counterexample_second_run_adds_log :
    logsSs ((mutateSetters (mutateSetters counterComponent).1)).1 ≠
      logsSs (mutateSetters counterComponent).1 := by decide

/-- C4 amended: the setter-logging mutation is not idempotent — it has no
guard recognizing an already-inserted log, so each application matches every
setter call again and inserts one more log statement before it: on a file
with one setter call the first run yields one log statement and marks the
file modified, and the second run yields two and marks it modified again
(regardless of the literal initial value and setter argument). -/
theorem c4_amended_second_run_inserts_additional_log (i a : Int) :
    logsSs (mutateSetters (counterComponentAt i a)).1 = 1 ∧
    (mutateSetters (counterComponentAt i a)).2 = true ∧
    logsSs ((mutateSetters (mutateSetters (counterComponentAt i a)).1)).1 = 2 ∧
    (mutateSetters (mutateSetters (counterComponentAt i a)).1).2 = true :=
  ⟨rfl, rfl, rfl, rfl⟩

/-! ## The useEffect logger (codeTransformer.js)

`transformCode` walks the tree with a single `CallExpression` visitor: every
call whose callee is the bare identifier `useEffect` is counted; when its
first argument is a function or arrow-function literal, a counter variable is
hoisted to the program top, and the callback body receives increment, log and
(when a dependency array is present) dependency-log statements.  The counter
`effectCounter` is module-global: it is threaded through every call of a run
and never reset between files. -/

/-- `effectCallCount_i`. -/
def counterName (effectIndex : Nat) : String :=
  "effectCallCount_" ++ toString effectIndex

/-- `let effectCallCount_i = 0`, hoisted to the program top. -/
def counterVar (effectIndex : Nat) : Stmt :=
  .varDecl "let" (.id (counterName effectIndex)) (some (.numLit 0))

/-- `effectCallCount_i += 1`. -/
def incrementCounter (effectIndex : Nat) : Stmt :=
  .exprStmt (.assign "+=" (.ident (counterName effectIndex)) (.numLit 1))

/-- The log label; the script also interpolates `lineNumber` (from
`node.loc`, parser metadata outside the tree model) after the file path. -/
def effectLogLabel (componentName filePath : String) (effectIndex : Nat) :
    String :=
  "[" ++ componentName ++ "_Effect_" ++ toString effectIndex ++
    "] useEffect at " ++ filePath ++ " - Call count:"

/-- `console.log('[C_Effect_i] useEffect at file - Call count:',
effectCallCount_i)`. -/
def effectLogStatement (componentName filePath : String) (effectIndex : Nat) :
    Stmt :=
  .exprStmt (.call (.member (.ident "console") "log")
    [.strLit (effectLogLabel componentName filePath effectIndex),
     .ident (counterName effectIndex)])

/-- `console.log('[C_Effect_i] Dependencies:', deps)`. -/
def dependenciesLogger (componentName : String) (effectIndex : Nat)
    (deps : Expr) : Expr :=
  .call (.member (.ident "console") "log")
    [.strLit ("[" ++ componentName ++ "_Effect_" ++ toString effectIndex ++
       "] Dependencies:"), deps]

/-- The statements unshifted onto a block-statement callback body, in final
order: the dependency log (when present) first, then the counter increment,
then the call-count log — the script unshifts them in the reverse of this
order. -/
def effectLogPrefix (componentName filePath : String) (effectIndex : Nat)
    (deps : Option Expr) : List Stmt :=
  match deps with
  | some d =>
      [.exprStmt (dependenciesLogger componentName effectIndex d),
       incrementCounter effectIndex,
       effectLogStatement componentName filePath effectIndex]
  | none =>
      [incrementCounter effectIndex,
       effectLogStatement componentName filePath effectIndex]

/-- The callback-body rewrite.  A block body is prefixed in place; an
expression body becomes a block of the increment, the log, the dependency log
(when present), and an explicit `return` of the original expression. -/
def mutateCallbackBody (componentName filePath : String) (effectIndex : Nat)
    (deps : Option Expr) : FnBody → FnBody
  | .block ss =>
      .block (effectLogPrefix componentName filePath effectIndex deps ++ ss)
  | .expr e =>
      let stmts := [incrementCounter effectIndex,
        effectLogStatement componentName filePath effectIndex]
      let stmts := match deps with
        | some d =>
            stmts ++ [.exprStmt (dependenciesLogger componentName effectIndex d)]
        | none => stmts
      .block (stmts ++ [.returnStmt (some e)])

/-- Traversal state of the useEffect logger: the module-global counter, the
counter declarations pending for the program top (most recent first, matching
successive `unshiftContainer` calls), the count of matched `useEffect` calls,
and the modified flag. -/
structure TCState where
  effectCounter : Nat
  pendingDecls : List Stmt
  effectsFound : Nat
  fileModified : Bool

/-- The component-name context from
`findParent(isFunctionDeclaration || isVariableDeclarator)`: entering a
variable declarator's initializer names it after `parent.node.id`; an array
pattern has no `.name`, leaving JavaScript `undefined`. -/
def tcDeclName : Pat → String
  | .id n => n
  | .arrayPat _ => "undefined"

/-- The context entering a function declaration:
`parent.node.id ? parent.node.id.name : 'Anonymous'`. -/
def tcFnDeclName (fid : Option String) : String := fid.getD "Anonymous"

mutual
/-- Expression walk of the useEffect logger.  The result is `none` when the
walk throws: a `useEffect()` call without arguments makes the script read
`.type` of `undefined` (a TypeError caught by the per-file handler).  The
dependency node is embedded in the synthesized log and kept as the second
argument — in Babel both positions share one node. -/
def tcExpr (fp cn : String) (st : TCState) : Expr → Option (Expr × TCState)
  | .ident n => some (.ident n, st)
  | .boolLit b => some (.boolLit b, st)
  | .strLit s => some (.strLit s, st)
  | .numLit n => some (.numLit n, st)
  | .nullLit => some (.nullLit, st)
  | .arrowFn body =>
      match tcBody fp cn st body with
      | none => none
      | some (b', st') => some (.arrowFn b', st')
  | .fnExpr fid body =>
      match tcStmts fp cn st body with
      | none => none
      | some (b', st') => some (.fnExpr fid b', st')
  | .cond t c a =>
      match tcExpr fp cn st t with
      | none => none
      | some (t', st1) =>
        match tcExpr fp cn st1 c with
        | none => none
        | some (c', st2) =>
          match tcExpr fp cn st2 a with
          | none => none
          | some (a', st3) => some (.cond t' c' a', st3)
  | .logical op l r =>
      match tcExpr fp cn st l with
      | none => none
      | some (l', st1) =>
        match tcExpr fp cn st1 r with
        | none => none
        | some (r', st2) => some (.logical op l' r', st2)
  | .call (.ident "useEffect") args =>
      let st0 := { st with effectsFound := st.effectsFound + 1 }
      (match args with
       | [] => none
       | callback :: rest =>
         match callback with
         | .arrowFn body =>
             let idx := st0.effectCounter
             let deps := rest.head?
             let st1 := { st0 with
               pendingDecls := counterVar idx :: st0.pendingDecls,
               effectCounter := idx + 1, fileModified := true }
             match tcBody fp cn st1 body with
             | none => none
             | some (body', st2) =>
               match tcExprs fp cn st2 rest with
               | none => none
               | some (rest', st3) =>
                   some (.call (.ident "useEffect")
                     (.arrowFn (mutateCallbackBody cn fp idx deps body')
                       :: rest'), st3)
         | .fnExpr fid fbody =>
             let idx := st0.effectCounter
             let deps := rest.head?
             let st1 := { st0 with
               pendingDecls := counterVar idx :: st0.pendingDecls,
               effectCounter := idx + 1, fileModified := true }
             match tcStmts fp cn st1 fbody with
             | none => none
             | some (fbody', st2) =>
               match tcExprs fp cn st2 rest with
               | none => none
               | some (rest', st3) =>
                   some (.call (.ident "useEffect")
                     (.fnExpr fid (effectLogPrefix cn fp idx deps ++ fbody')
                       :: rest'), st3)
         | .ident n =>
             match tcExprs fp cn st0 rest with
             | none => none
             | some (rest', st1) =>
                 some (.call (.ident "useEffect") (.ident n :: rest'), st1)
         | other =>
             match tcExpr fp cn st0 other with
             | none => none
             | some (o', st1) =>
               match tcExprs fp cn st1 rest with
               | none => none
               | some (rest', st2) =>
                   some (.call (.ident "useEffect") (o' :: rest'), st2))
  | .call callee args =>
      match tcExpr fp cn st callee with
      | none => none
      | some (callee', st1) =>
        match tcExprs fp cn st1 args with
        | none => none
        | some (args', st2) => some (.call callee' args', st2)
  | .member obj prop =>
      match tcExpr fp cn st obj with
      | none => none
      | some (o', st') => some (.member o' prop, st')
  | .assign op tgt v =>
      match tcExpr fp cn st tgt with
      | none => none
      | some (t', st1) =>
        match tcExpr fp cn st1 v with
        | none => none
        | some (v', st2) => some (.assign op t' v', st2)
  | .objectE props =>
      match tcProps fp cn st props with
      | none => none
      | some (ps', st') => some (.objectE ps', st')
  | .arrayE elems =>
      match tcExprs fp cn st elems with
      | none => none
      | some (es', st') => some (.arrayE es', st')
  | .binary op l r =>
      match tcExpr fp cn st l with
      | none => none
      | some (l', st1) =>
        match tcExpr fp cn st1 r with
        | none => none
        | some (r', st2) => some (.binary op l' r', st2)
  | .jsx tag attrs children sc =>
      match tcProps fp cn st attrs with
      | none => none
      | some (as', st1) =>
        match tcExprs fp cn st1 children with
        | none => none
        | some (cs', st2) => some (.jsx tag as' cs' sc, st2)
  | .jsxFragment children =>
      match tcExprs fp cn st children with
      | none => none
      | some (cs', st') => some (.jsxFragment cs', st')

def tcExprs (fp cn : String) (st : TCState) :
    List Expr → Option (List Expr × TCState)
  | [] => some ([], st)
  | e :: es =>
      match tcExpr fp cn st e with
      | none => none
      | some (e', st1) =>
        match tcExprs fp cn st1 es with
        | none => none
        | some (es', st2) => some (e' :: es', st2)

def tcProps (fp cn : String) (st : TCState) :
    List (String × Expr) → Option (List (String × Expr) × TCState)
  | [] => some ([], st)
  | (k, e) :: ps =>
      match tcExpr fp cn st e with
      | none => none
      | some (e', st1) =>
        match tcProps fp cn st1 ps with
        | none => none
        | some (ps', st2) => some ((k, e') :: ps', st2)

def tcBody (fp cn : String) (st : TCState) : FnBody → Option (FnBody × TCState)
  | .block ss =>
      match tcStmts fp cn st ss with
      | none => none
      | some (ss', st') => some (.block ss', st')
  | .expr e =>
      match tcExpr fp cn st e with
      | none => none
      | some (e', st') => some (.expr e', st')

def tcStmt (fp cn : String) (st : TCState) : Stmt → Option (Stmt × TCState)
  | .importDecl source specs => some (.importDecl source specs, st)
  | .varDecl kind pid (some e) =>
      match tcExpr fp (tcDeclName pid) st e with
      | none => none
      | some (e', st') => some (.varDecl kind pid (some e'), st')
  | .varDecl kind pid none => some (.varDecl kind pid none, st)
  | .exprStmt e =>
      match tcExpr fp cn st e with
      | none => none
      | some (e', st') => some (.exprStmt e', st')
  | .returnStmt (some e) =>
      match tcExpr fp cn st e with
      | none => none
      | some (e', st') => some (.returnStmt (some e'), st')
  | .returnStmt none => some (.returnStmt none, st)
  | .funcDecl fid params body =>
      match tcStmts fp (tcFnDeclName fid) st body with
      | none => none
      | some (b', st') => some (.funcDecl fid params b', st')

def tcStmts (fp cn : String) (st : TCState) :
    List Stmt → Option (List Stmt × TCState)
  | [] => some ([], st)
  | s :: ss =>
      match tcStmt fp cn st s with
      | none => none
      | some (s', st1) =>
        match tcStmts fp cn st1 ss with
        | none => none
        | some (ss', st2) => some (s' :: ss', st2)
end

/-- `transformCode`'s result: the regenerated module when at least one site
was mutated (`null` otherwise, with `effectsCount` forced to zero), plus the
count of matched `useEffect` calls. -/
structure TransformResult where
  modified : Option Program
  effectsCount : Nat

/-- `transformCode` on an already-parsed module; `effectCounter` is the
module-global counter value when the file's traversal starts, and the second
component is its value afterwards.  `none` models the TypeError a
zero-argument `useEffect()` raises (the JavaScript global keeps any
increments made before the throw; no claim depends on that residue). -/
def transformCode (code : Program) (filePath : String) (effectCounter : Nat) :
    Option (TransformResult × Nat) :=
  match tcStmts filePath "Unknown"
      { effectCounter := effectCounter, pendingDecls := [],
        effectsFound := 0, fileModified := false } code with
  | none => none
  | some (body, st) =>
      if st.fileModified then
        some ({ modified := some (st.pendingDecls ++ body),
                effectsCount := st.effectsFound }, st.effectCounter)
      else
        some ({ modified := none, effectsCount := 0 }, st.effectCounter)

/-- The hoisted counter declarations of an output module, top level only. -/
def counterVarNames (prog : Program) : List String :=
  prog.filterMap fun s =>
    match s with
    | .varDecl "let" (.id nm) (some (.numLit 0)) => some nm
    | _ => none

/-! Decimal rendering is injective: two distinct counter indices always yield
distinct `effectCallCount_i` names. -/

/-- The decimal digit characters of `n`, most significant first. -/
def decChars (n : Nat) : List Char :=
  if n < 10 then [Nat.digitChar n]
  else decChars (n / 10) ++ [Nat.digitChar (n % 10)]
decreasing_by exact Nat.div_lt_self (by omega) (by omega)

theorem decChars_lt {n : Nat} (h : n < 10) : decChars n = [Nat.digitChar n] := by
  rw [decChars, if_pos h]

theorem decChars_ge {n : Nat} (h : ¬ n < 10) :
    decChars n = decChars (n / 10) ++ [Nat.digitChar (n % 10)] := by
  rw [decChars, if_neg h]

theorem decChars_ne_nil (n : Nat) : decChars n ≠ [] := by
  rw [decChars]
  split <;> simp

theorem decChars_length_pos (n : Nat) : 0 < (decChars n).length :=
  List.length_pos.mpr (decChars_ne_nil n)

theorem toDigitsCore_eq_decChars (fuel : Nat) :
    ∀ n ds, n < fuel → Nat.toDigitsCore 10 fuel n ds = decChars n ++ ds := by
  induction fuel with
  | zero => intro n ds h; omega
  | succ fuel ih =>
    intro n ds h
    rw [Nat.toDigitsCore]
    by_cases h10 : n / 10 = 0
    · have hn : n < 10 := by omega
      rw [if_pos h10, decChars_lt hn, Nat.mod_eq_of_lt hn]
      rfl
    · have hn : ¬ n < 10 := by omega
      have hdiv : n / 10 < fuel := by
        have h1 : n / 10 < n := Nat.div_lt_self (by omega) (by omega)
        omega
      rw [if_neg h10, ih (n / 10) _ hdiv, decChars_ge hn, List.append_assoc]
      rfl

theorem natRepr_eq_decChars (n : Nat) : Nat.repr n = (decChars n).asString := by
  show (Nat.toDigits 10 n).asString = (decChars n).asString
  rw [Nat.toDigits, toDigitsCore_eq_decChars (n + 1) n [] (Nat.lt_succ_self n),
    List.append_nil]

theorem digitChar_inj_lt : ∀ a < 10, ∀ b < 10,
    Nat.digitChar a = Nat.digitChar b → a = b := by decide

theorem decChars_inj : ∀ m n : Nat, decChars m = decChars n → m = n := by
  intro m
  induction m using Nat.strong_induction_on with
  | _ m ih =>
    intro n h
    by_cases hm : m < 10 <;> by_cases hn : n < 10
    · rw [decChars_lt hm, decChars_lt hn] at h
      exact digitChar_inj_lt m hm n hn (List.singleton_injective h)
    · rw [decChars_lt hm, decChars_ge hn] at h
      have hlen := congrArg List.length h
      have := decChars_length_pos (n / 10)
      simp only [List.length_append, List.length_cons, List.length_nil] at hlen
      omega
    · rw [decChars_ge hm, decChars_lt hn] at h
      have hlen := congrArg List.length h
      have := decChars_length_pos (m / 10)
      simp only [List.length_append, List.length_cons, List.length_nil] at hlen
      omega
    · rw [decChars_ge hm, decChars_ge hn] at h
      have hparts := List.append_inj' h rfl
      have hdiv : m / 10 = n / 10 :=
        ih (m / 10) (Nat.div_lt_self (by omega) (by omega)) (n / 10) hparts.1
      have hmod : m % 10 = n % 10 :=
        digitChar_inj_lt (m % 10) (Nat.mod_lt _ (by omega)) (n % 10)
          (Nat.mod_lt _ (by omega)) (List.singleton_injective hparts.2)
      omega

theorem natRepr_injective : Function.Injective Nat.repr := by
  intro m n h
  rw [natRepr_eq_decChars, natRepr_eq_decChars] at h
  exact decChars_inj m n (by
    have : (decChars m).asString.data = (decChars n).asString.data :=
      congrArg String.data h
    simpa [List.asString] using this)

theorem counterName_injective : Function.Injective counterName := by
  intro m n h
  have : ("effectCallCount_" ++ Nat.repr m).data =
      ("effectCallCount_" ++ Nat.repr n).data := congrArg String.data h
  simp only [String.data_append] at this
  exact natRepr_injective (String.ext (List.append_cancel_left this))

/-! The useEffect logger's counter is monotone, and the modified flag is set
exactly when the counter advanced: a site mutation increments the counter and
sets the flag in the same visitor branch, and nothing else touches either. -/

/-- Relation between the traversal state before and after a walk: the counter
never decreases, and the flag is set afterwards exactly when it was set
before or the counter strictly advanced. -/
def TCok (st st' : TCState) : Prop :=
  st.effectCounter ≤ st'.effectCounter ∧
    (st'.fileModified = true ↔
      (st.fileModified = true ∨ st.effectCounter < st'.effectCounter))

theorem TCok.rfl (st : TCState) : TCok st st := ⟨le_refl _, by simp⟩

theorem TCok.trans {s1 s2 s3 : TCState} (h1 : TCok s1 s2) (h2 : TCok s2 s3) :
    TCok s1 s3 := by
  obtain ⟨l1, i1⟩ := h1
  obtain ⟨l2, i2⟩ := h2
  refine ⟨le_trans l1 l2, ?_⟩
  rw [i2, i1]
  by_cases hm : s1.fileModified = true <;> simp [hm] <;> omega

/-- `TCok` from a state to its successors built in the matched-call branch. -/
theorem TCok.found (st : TCState) :
    TCok st { st with effectsFound := st.effectsFound + 1 } :=
  ⟨le_refl _, by simp⟩

theorem TCok.mutated (st : TCState) (d : Stmt) :
    TCok st { st with
      pendingDecls := (d :: st.pendingDecls),
      effectCounter := st.effectCounter + 1, fileModified := true } :=
  ⟨Nat.le_succ _, by simp⟩

/-- `TCok` lifted over an optional traversal result. -/
def stepOk (st : TCState) : Option (α × TCState) → Prop
  | none => True
  | some (_, st') => TCok st st'

theorem stepOk_some {st st' : TCState} {a : α}
    {r : Option (α × TCState)} (h : r = some (a, st')) (hs : stepOk st r) :
    TCok st st' := by subst h; exact hs

mutual
theorem tcExpr_ok (fp cn : String) :
    ∀ (e : Expr) (st : TCState), stepOk st (tcExpr fp cn st e)
  | .ident _, st => TCok.rfl st
  | .boolLit _, st => TCok.rfl st
  | .strLit _, st => TCok.rfl st
  | .numLit _, st => TCok.rfl st
  | .nullLit, st => TCok.rfl st
  | .arrowFn body, st => by
      simp only [tcExpr]
      split
      · trivial
      next b' st' h1 => exact stepOk_some h1 (tcBody_ok fp cn body st)
  | .fnExpr fid body, st => by
      simp only [tcExpr]
      split
      · trivial
      next b' st' h1 => exact stepOk_some h1 (tcStmts_ok fp cn body st)
  | .cond t c a, st => by
      simp only [tcExpr]
      split
      · trivial
      next t' st1 h1 =>
        split
        · trivial
        next c' st2 h2 =>
          split
          · trivial
          next a' st3 h3 =>
            exact ((stepOk_some h1 (tcExpr_ok fp cn t st)).trans
              (stepOk_some h2 (tcExpr_ok fp cn c st1))).trans
              (stepOk_some h3 (tcExpr_ok fp cn a st2))
  | .logical op l r, st => by
      simp only [tcExpr]
      split
      · trivial
      next l' st1 h1 =>
        split
        · trivial
        next r' st2 h2 =>
          exact (stepOk_some h1 (tcExpr_ok fp cn l st)).trans
            (stepOk_some h2 (tcExpr_ok fp cn r st1))
  | .call callee args, st => by
      cases callee
      case ident n =>
        by_cases hn : n = "useEffect"
        · subst hn
          cases args with
          | nil => rw [tcExpr.eq_10]; trivial
          | cons callback rest =>
              cases callback <;>
                first
                | (rw [tcExpr.eq_11]
                   split
                   · trivial
                   next body' st2 h2 =>
                     split
                     · trivial
                     next rest' st3 h3 =>
                       exact (((TCok.found st).trans (TCok.mutated _ _)).trans
                         (stepOk_some h2 (tcBody_ok fp cn _ _))).trans
                         (stepOk_some h3 (tcExprs_ok fp cn _ st2)))
                | (rw [tcExpr.eq_12]
                   split
                   · trivial
                   next fbody' st2 h2 =>
                     split
                     · trivial
                     next rest' st3 h3 =>
                       exact (((TCok.found st).trans (TCok.mutated _ _)).trans
                         (stepOk_some h2 (tcStmts_ok fp cn _ _))).trans
                         (stepOk_some h3 (tcExprs_ok fp cn _ st2)))
                | (rw [tcExpr.eq_13]
                   split
                   · trivial
                   next rest' st1 h1 =>
                     exact (TCok.found st).trans
                       (stepOk_some h1 (tcExprs_ok fp cn _ _)))
                | (rw [tcExpr.eq_14]
                   rotate_left
                   · nofun
                   · nofun
                   · nofun
                   split
                   · trivial
                   next o' st1 h1 =>
                     split
                     · trivial
                     next rest' st2 h2 =>
                       exact ((TCok.found st).trans
                         (stepOk_some h1 (tcExpr_ok fp cn _ _))).trans
                         (stepOk_some h2 (tcExprs_ok fp cn _ st1)))
        · rw [tcExpr.eq_15]
          rotate_left
          · intro h; injection h with h2; exact hn h2
          split
          · trivial
          next callee' st1 h1 =>
            split
            · trivial
            next args' st2 h2 =>
              exact (stepOk_some h1 (tcExpr_ok fp cn (.ident n) st)).trans
                (stepOk_some h2 (tcExprs_ok fp cn args st1))
      all_goals
        rw [tcExpr.eq_15]
        rotate_left
        · nofun
        split
        · trivial
        next callee' st1 h1 =>
          split
          · trivial
          next args' st2 h2 =>
            exact (stepOk_some h1 (tcExpr_ok fp cn _ st)).trans
              (stepOk_some h2 (tcExprs_ok fp cn args st1))
  | .member obj prop, st => by
      simp only [tcExpr]
      split
      · trivial
      next o' st' h1 => exact stepOk_some h1 (tcExpr_ok fp cn obj st)
  | .assign op tgt v, st => by
      simp only [tcExpr]
      split
      · trivial
      next t' st1 h1 =>
        split
        · trivial
        next v' st2 h2 =>
          exact (stepOk_some h1 (tcExpr_ok fp cn tgt st)).trans
            (stepOk_some h2 (tcExpr_ok fp cn v st1))
  | .objectE props, st => by
      simp only [tcExpr]
      split
      · trivial
      next ps' st' h1 => exact stepOk_some h1 (tcProps_ok fp cn props st)
  | .arrayE elems, st => by
      simp only [tcExpr]
      split
      · trivial
      next es' st' h1 => exact stepOk_some h1 (tcExprs_ok fp cn elems st)
  | .binary op l r, st => by
      simp only [tcExpr]
      split
      · trivial
      next l' st1 h1 =>
        split
        · trivial
        next r' st2 h2 =>
          exact (stepOk_some h1 (tcExpr_ok fp cn l st)).trans
            (stepOk_some h2 (tcExpr_ok fp cn r st1))
  | .jsx tag attrs children sc, st => by
      simp only [tcExpr]
      split
      · trivial
      next as' st1 h1 =>
        split
        · trivial
        next cs' st2 h2 =>
          exact (stepOk_some h1 (tcProps_ok fp cn attrs st)).trans
            (stepOk_some h2 (tcExprs_ok fp cn children st1))
  | .jsxFragment children, st => by
      simp only [tcExpr]
      split
      · trivial
      next cs' st' h1 => exact stepOk_some h1 (tcExprs_ok fp cn children st)

theorem tcExprs_ok (fp cn : String) :
    ∀ (es : List Expr) (st : TCState), stepOk st (tcExprs fp cn st es)
  | [], st => TCok.rfl st
  | e :: es, st => by
      simp only [tcExprs]
      split
      · trivial
      next e' st1 h1 =>
        split
        · trivial
        next es' st2 h2 =>
          exact (stepOk_some h1 (tcExpr_ok fp cn e st)).trans
            (stepOk_some h2 (tcExprs_ok fp cn es st1))

theorem tcProps_ok (fp cn : String) :
    ∀ (ps : List (String × Expr)) (st : TCState), stepOk st (tcProps fp cn st ps)
  | [], st => TCok.rfl st
  | (k, e) :: ps, st => by
      simp only [tcProps]
      split
      · trivial
      next e' st1 h1 =>
        split
        · trivial
        next ps' st2 h2 =>
          exact (stepOk_some h1 (tcExpr_ok fp cn e st)).trans
            (stepOk_some h2 (tcProps_ok fp cn ps st1))

theorem tcBody_ok (fp cn : String) :
    ∀ (b : FnBody) (st : TCState), stepOk st (tcBody fp cn st b)
  | .block ss, st => by
      simp only [tcBody]
      split
      · trivial
      next ss' st' h1 => exact stepOk_some h1 (tcStmts_ok fp cn ss st)
  | .expr e, st => by
      simp only [tcBody]
      split
      · trivial
      next e' st' h1 => exact stepOk_some h1 (tcExpr_ok fp cn e st)

theorem tcStmt_ok (fp cn : String) :
    ∀ (s : Stmt) (st : TCState), stepOk st (tcStmt fp cn st s)
  | .importDecl _ _, st => TCok.rfl st
  | .varDecl kind pid (some e), st => by
      simp only [tcStmt]
      split
      · trivial
      next e' st' h1 => exact stepOk_some h1 (tcExpr_ok fp (tcDeclName pid) e st)
  | .varDecl _ _ none, st => TCok.rfl st
  | .exprStmt e, st => by
      simp only [tcStmt]
      split
      · trivial
      next e' st' h1 => exact stepOk_some h1 (tcExpr_ok fp cn e st)
  | .returnStmt (some e), st => by
      simp only [tcStmt]
      split
      · trivial
      next e' st' h1 => exact stepOk_some h1 (tcExpr_ok fp cn e st)
  | .returnStmt none, st => TCok.rfl st
  | .funcDecl fid params body, st => by
      simp only [tcStmt]
      split
      · trivial
      next b' st' h1 =>
        exact stepOk_some h1 (tcStmts_ok fp (tcFnDeclName fid) body st)

theorem tcStmts_ok (fp cn : String) :
    ∀ (ss : List Stmt) (st : TCState), stepOk st (tcStmts fp cn st ss)
  | [], st => TCok.rfl st
  | s :: ss, st => by
      simp only [tcStmts]
      split
      · trivial
      next s' st1 h1 =>
        split
        · trivial
        next ss' st2 h2 =>
          exact (stepOk_some h1 (tcStmt_ok fp cn s st)).trans
            (stepOk_some h2 (tcStmts_ok fp cn ss st1))
end

/-- The useEffect logger never decreases the module-global counter, and the
output module is non-null (a write will occur) exactly when the counter
strictly advanced, i.e. when at least one site was mutated. -/
theorem transformCode_write_iff_mutation (code : Program) (fp : String)
    (c : Nat) (res : TransformResult) (c' : Nat)
    (h : transformCode code fp c = some (res, c')) :
    c ≤ c' ∧ (res.modified.isSome = true ↔ c < c') := by
  simp only [transformCode] at h
  cases heq : tcStmts fp "Unknown"
      { effectCounter := c, pendingDecls := [], effectsFound := 0,
        fileModified := false } code with
  | none => rw [heq] at h; exact absurd h (by simp)
  | some p =>
    obtain ⟨body, st⟩ := p
    rw [heq] at h
    dsimp only at h
    have hok := stepOk_some heq (tcStmts_ok fp "Unknown" code _)
    obtain ⟨hle, hiff⟩ := hok
    simp only [Bool.false_eq_true, false_or] at hiff
    by_cases hm : st.fileModified = true
    · rw [if_pos hm] at h
      injection h with h1
      injection h1 with hres hc
      subst hres; subst hc
      exact ⟨hle, by simp [hiff.mp hm]⟩
    · rw [if_neg hm] at h
      injection h with h1
      injection h1 with hres hc
      subst hres; subst hc
      have : ¬ c < st.effectCounter := fun hlt => hm (hiff.mpr hlt)
      simp only [Option.isSome_none, Bool.false_eq_true, false_iff]
      exact ⟨hle, this⟩

/-! ## The file-processing layer (fileProcessor.js and the runs)

A source file is modeled by its path, the textual prefilter
(`code.includes('useEffect')` resp. `'useState'`) and its parse outcome
(`none` = malformed source: the parser throws, the per-file handler catches
and logs, and the file contributes nothing). -/

structure SrcFile where
  path : String
  mentions : Bool
  parse : Option Program

/-- What `processFile` did for one file: the module handed to the serializer
and written back (when at least one site was mutated), and the per-file
count passed to `updateCounter`. -/
structure FileOutcome where
  path : String
  written : Option Program
  reported : Option Nat

/-- `processFile` of the useEffect logger: prefilter, parse, transform, and
write back only when `modified` is non-null; any error leaves the file
untouched and the run continues. -/
def processFileTC (f : SrcFile) (counter : Nat) : FileOutcome × Nat :=
  if f.mentions = false then (⟨f.path, none, none⟩, counter)
  else
    match f.parse with
    | none => (⟨f.path, none, none⟩, counter)
    | some prog =>
      match transformCode prog f.path counter with
      | none => (⟨f.path, none, none⟩, counter)
      | some (res, c') =>
        match res.modified with
        | some out => (⟨f.path, some out, some res.effectsCount⟩, c')
        | none => (⟨f.path, none, none⟩, c')

/-- `processDirectory` of the useEffect logger: strictly sequential, the
module-global counter threaded through. -/
def runTC (counter : Nat) : List SrcFile → List FileOutcome × Nat
  | [] => ([], counter)
  | f :: fs =>
      let r := processFileTC f counter
      let rs := runTC r.2 fs
      (r.1 :: rs.1, rs.2)

/-- The final `Total useEffects found and modified` figure: the sum of the
per-file counts passed to `updateCounter`. -/
def totalReported (outs : List FileOutcome) : Nat :=
  (outs.filterMap FileOutcome.reported).sum

/-- The on-disk value of a file after processing: the serialized output when
a write occurred, the untouched original bytes otherwise (`render` is the
external code generator). -/
def diskAfterTC (render : Program → String) (original : String) (f : SrcFile)
    (counter : Nat) : String :=
  match (processFileTC f counter).1.written with
  | some out => render out
  | none => original

/-- `analyzeFile` of the analyzer script at the file level: `undefined` when
the prefilter fails, `[]` when the parse throws (caught), the findings
otherwise. -/
def analyzeFileOpt (f : SrcFile) : Option (List Finding) :=
  if f.mentions = false then none
  else
    match f.parse with
    | none => some []
    | some prog => some (analyzeProgram f.path prog)

/-- `processDirectory` of the analyzer: findings accumulate in file order
(`if (findings && findings.length > 0) allFindings.push(...findings)`). -/
def runAnalyzer : List SrcFile → List Finding
  | [] => []
  | f :: fs =>
      (match analyzeFileOpt f with
       | some l => if 0 < l.length then l else []
       | none => []) ++ runAnalyzer fs

/-- `processFile` of the setter logger at the file level: the module written
back, or nothing when no setter call was matched. -/
def processFileSetters (f : SrcFile) : Option Program :=
  if f.mentions = false then none
  else
    match f.parse with
    | none => none
    | some prog =>
      let r := mutateSetters prog
      if r.2 then some r.1 else none

/-- The on-disk value of a file after the setter logger. -/
def diskAfterSetters (render : Program → String) (original : String)
    (f : SrcFile) : String :=
  match processFileSetters f with
  | some out => render out
  | none => original

/-! ## The canonical effect files -/

/-- `useEffect(() => {})` in statement position. -/
def effectStmt : Stmt :=
  .exprStmt (.call (.ident "useEffect") [.arrowFn (.block [])])

/-- A component file with `n` identical `useEffect(() => {})` sites. -/
def effectFile (n : Nat) : Program :=
  [ .importDecl "react" [.named "useEffect" "useEffect"],
    .funcDecl (some "App") [] (List.replicate n effectStmt) ]

/-- The mutated form of one `useEffect(() => {})` site with counter index
`idx`. -/
def mutatedEffectStmt (fp cn : String) (idx : Nat) : Stmt :=
  .exprStmt (.call (.ident "useEffect")
    [.arrowFn (.block
      [incrementCounter idx, effectLogStatement cn fp idx])])

theorem tcStmt_effectStmt (fp cn : String) (st : TCState) :
    tcStmt fp cn st effectStmt =
      some (mutatedEffectStmt fp cn st.effectCounter,
        { st with
          effectCounter := st.effectCounter + 1,
          pendingDecls := (counterVar st.effectCounter :: st.pendingDecls),
          effectsFound := st.effectsFound + 1,
          fileModified := true }) := rfl

theorem tcStmts_replicate (fp cn : String) :
    ∀ (n : Nat) (st : TCState),
    tcStmts fp cn st (List.replicate n effectStmt) =
      some ((List.range' st.effectCounter n).map (mutatedEffectStmt fp cn),
        { st with
          effectCounter := st.effectCounter + n,
          pendingDecls :=
            (((List.range' st.effectCounter n).map counterVar).reverse ++
              st.pendingDecls),
          effectsFound := st.effectsFound + n,
          fileModified := (st.fileModified || decide (0 < n)) })
  | 0, st => by
      cases st
      simp [tcStmts, List.range'_zero]
  | n + 1, st => by
      rw [List.replicate_succ]
      simp only [tcStmts, tcStmt_effectStmt]
      rw [tcStmts_replicate fp cn n _]
      simp only [List.range'_succ, List.map_cons, List.reverse_cons,
        List.append_assoc, List.singleton_append, List.cons_append]
      have h1 : st.effectCounter + 1 + n = st.effectCounter + (n + 1) := by
        omega
      have h2 : st.effectsFound + 1 + n = st.effectsFound + (n + 1) := by
        omega
      simp [h1, h2, Nat.zero_lt_succ]

/-- Characterization of `transformCode` on the `n`-site component file
starting from module-global counter `c`: every site is mutated, the hoisted
counter declarations carry the consecutive indices `c, …, c + n − 1` (most
recent first), and the counter leaves at `c + n`. -/
def effectFileOutput (fp : String) (n c : Nat) : Program :=
  (((List.range' c n).map counterVar).reverse) ++
    [ .importDecl "react" [.named "useEffect" "useEffect"],
      .funcDecl (some "App") []
        ((List.range' c n).map (mutatedEffectStmt fp "App")) ]

theorem transformCode_effectFile (fp : String) (n c : Nat) (h : 0 < n) :
    transformCode (effectFile n) fp c =
      some ({ modified := some (effectFileOutput fp n c), effectsCount := n },
        c + n) := by
  have hrep := tcStmts_replicate fp "App" n
    { effectCounter := c, pendingDecls := [], effectsFound := 0,
      fileModified := false }
  simp only [transformCode, effectFile, tcStmts, tcStmt, tcFnDeclName,
    Option.getD] at *
  rw [hrep]
  simp [h, effectFileOutput]

/-- C5 counterexample: in a run over two files with one `useEffect` site
each, the first file's counter variable is `effectCallCount_0` but the second
file's is `effectCallCount_1` — the module-global counter is never reset, so
the second file's generated names do not start at index 0. -/
theorem c5_counterexample_second_file_not_zero_based :
    ((runTC 0 [⟨"A.jsx", true, some (effectFile 1)⟩,
        ⟨"B.jsx", true, some (effectFile 1)⟩]).1.map
      (fun o => o.written.map counterVarNames)) =
      [some [counterName 0], some [counterName 1]] ∧
    counterName 1 ≠ counterName 0 := by
  constructor
  · rfl
  · decide

/-- C5 amended: for a file with `n` mutated `useEffect` sites processed when
the run-global counter holds `c`, the generated counter variable names are
pairwise distinct and carry the consecutive indices `c, …, c + n − 1`
(hoisted most-recent-first), and the counter leaves at `c + n`; the indices
start at 0 only when `c = 0`, i.e. for the sites mutated first in the run —
the counter is module-global and never reset between files. -/
theorem counterVarNames_map (l : List Nat) :
    counterVarNames (l.map counterVar) = l.map counterName := by
  induction l with
  | nil => rfl
  | cons i l ih =>
      simp only [List.map_cons, counterVarNames, List.filterMap_cons] at *
      rw [← ih]
      rfl

theorem counterVarNames_effectFileOutput (fp : String) (n c : Nat) :
    counterVarNames (effectFileOutput fp n c) =
      ((List.range' c n).map counterName).reverse := by
  simp only [effectFileOutput, counterVarNames, List.filterMap_append,
    ← List.map_reverse]
  rw [show List.filterMap _ (List.map counterVar (List.range' c n).reverse) =
      counterVarNames (List.map counterVar (List.range' c n).reverse) from rfl,
    counterVarNames_map, List.map_reverse]
  simp [List.filterMap_cons]

theorem c5_amended_counter_names_consecutive_from_run_counter (fp : String)
    (n c : Nat) (h : 0 < n) :
    transformCode (effectFile n) fp c =
      some ({ modified := some (effectFileOutput fp n c),
              effectsCount := n }, c + n) ∧
    counterVarNames (effectFileOutput fp n c) =
      ((List.range' c n).map counterName).reverse ∧
    (counterVarNames (effectFileOutput fp n c)).Nodup := by
  refine ⟨transformCode_effectFile fp n c h,
    counterVarNames_effectFileOutput fp n c, ?_⟩
  rw [counterVarNames_effectFileOutput]
  exact List.nodup_reverse.mpr
    ((List.nodup_range' (s := c) (n := n)).map counterName_injective)

theorem c5_amended_counter_names_witness :
    transformCode (effectFile 1) "App.jsx" 0 =
      some ({ modified := some (effectFileOutput "App.jsx" 1 0),
              effectsCount := 1 }, 0 + 1) ∧
    counterVarNames (effectFileOutput "App.jsx" 1 0) =
      ((List.range' 0 1).map counterName).reverse ∧
    (counterVarNames (effectFileOutput "App.jsx" 1 0)).Nodup :=
  c5_amended_counter_names_consecutive_from_run_counter "App.jsx" 1 0
    (by decide)

/-- C9: a file in which the mutator performs zero mutations is never written:
for the useEffect logger, an unchanged module-global counter (no site
mutated) means `modified` is null, no write occurs, and the on-disk bytes
stay the original ones; conversely a write implies the counter strictly
advanced (at least one mutation).  For the setter logger, an unset `modified`
flag (no setter call matched) likewise means no write and untouched disk
content. -/
theorem c9_zero_mutations_no_write :
    (∀ (f : SrcFile) (c : Nat) (prog : Program) (res : TransformResult)
       (c' : Nat), f.parse = some prog →
       transformCode prog f.path c = some (res, c') → c' = c →
       (processFileTC f c).1.written = none ∧
       ∀ (render : Program → String) (original : String),
         diskAfterTC render original f c = original) ∧
    (∀ (f : SrcFile) (c : Nat),
       (processFileTC f c).1.written.isSome = true →
       c < (processFileTC f c).2) ∧
    (∀ (f : SrcFile) (prog : Program), f.parse = some prog →
       (mutateSetters prog).2 = false →
       processFileSetters f = none ∧
       ∀ (render : Program → String) (original : String),
         diskAfterSetters render original f = original) := by
  refine ⟨?_, ?_, ?_⟩
  · intro f c prog res c' hp ht hc
    rw [hc] at ht
    have hiff := (transformCode_write_iff_mutation prog f.path c res c ht).2
    have hmod : res.modified = none := by
      cases hm : res.modified with
      | none => rfl
      | some out =>
        have : c < c := hiff.mp (by simp [hm])
        omega
    have hw : (processFileTC f c).1.written = none := by
      by_cases hmen : f.mentions = false
      · simp [processFileTC, hmen]
      · simp [processFileTC, hmen, hp, ht, hmod]
    exact ⟨hw, fun render original => by simp [diskAfterTC, hw]⟩
  · intro f c h
    by_cases hmen : f.mentions = false
    · simp [processFileTC, hmen] at h
    · cases hp : f.parse with
      | none => simp [processFileTC, hmen, hp] at h
      | some prog =>
        cases ht : transformCode prog f.path c with
        | none => simp [processFileTC, hmen, hp, ht] at h
        | some rc =>
          obtain ⟨res, c'⟩ := rc
          cases hmod : res.modified with
          | none => simp [processFileTC, hmen, hp, ht, hmod] at h
          | some out =>
            have hiff :=
              (transformCode_write_iff_mutation prog f.path c res c' ht).2
            simp only [processFileTC, hmen, Bool.false_eq_true, if_false, hp,
              ht, hmod]
            exact hiff.mp (by simp [hmod])
  · intro f prog hp hm
    have hw : processFileSetters f = none := by
      by_cases hmen : f.mentions = false
      · simp [processFileSetters, hmen]
      · simp [processFileSetters, hmen, hp, hm]
    exact ⟨hw, fun render original => by simp [diskAfterSetters, hw]⟩

/-- C9 witness: a component file with no `useEffect` callback to mutate and
no setter call to log is written by neither mutator; and a file with one
mutated site is written and advances the counter. -/
theorem c9_zero_mutations_no_write_witness :
    ((processFileTC ⟨"Empty.jsx", true, some [.funcDecl (some "App") [] []]⟩
        0).1.written = none ∧
      ∀ (render : Program → String) (original : String),
        diskAfterTC render original
          ⟨"Empty.jsx", true, some [.funcDecl (some "App") [] []]⟩ 0 =
          original) ∧
    (0 < (processFileTC ⟨"App.jsx", true, some (effectFile 1)⟩ 0).2) ∧
    (processFileSetters
        ⟨"Empty.jsx", true, some [.funcDecl (some "App") [] []]⟩ = none) :=
  ⟨c9_zero_mutations_no_write.1
      ⟨"Empty.jsx", true, some [.funcDecl (some "App") [] []]⟩ 0
      [.funcDecl (some "App") [] []] _ 0 rfl rfl rfl,
   c9_zero_mutations_no_write.2.1
      ⟨"App.jsx", true, some (effectFile 1)⟩ 0 (by rfl),
   (c9_zero_mutations_no_write.2.2
      ⟨"Empty.jsx", true, some [.funcDecl (some "App") [] []]⟩
      [.funcDecl (some "App") [] []] rfl rfl).1⟩

/-- A file with one mutated site (`useEffect(() => {})`) and one counted but
unmutated site (`useEffect(onTick)`, whose first argument is not a function
literal). -/
def mixedFile : Program :=
  [ .funcDecl (some "App") []
      [ effectStmt, .exprStmt (.call (.ident "useEffect") [.ident "onTick"]) ] ]

/-- C10: `effectsFound` counts every call whose callee is the bare identifier
`useEffect`, even when the first argument is not a function or arrow-function
literal and no logging is inserted — the visitor increments it before
inspecting the callback.  On a file with one mutated and one unmutated site
the reported per-file count is 2 while the counter advanced by only 1, so
the `found and modified` totals exceed the number of sites actually
mutated. -/
theorem c10_effects_count_includes_unmutated_sites :
    (∀ (fp cn nm : String) (st : TCState),
      tcExpr fp cn st (.call (.ident "useEffect") [.ident nm]) =
        some (.call (.ident "useEffect") [.ident nm],
          { st with effectsFound := st.effectsFound + 1 })) ∧
    (∃ res : TransformResult,
      transformCode mixedFile "App.jsx" 0 = some (res, 1) ∧
      res.effectsCount = 2 ∧ res.modified.isSome = true) ∧
    (processFileTC ⟨"App.jsx", true, some mixedFile⟩ 0).1.reported = some 2 ∧
    (processFileTC ⟨"App.jsx", true, some mixedFile⟩ 0).2 = 1 ∧ 1 < 2 :=
  ⟨fun _ _ _ _ => rfl, ⟨_, rfl, rfl, rfl⟩, rfl, rfl, by decide⟩

/-- A file defining its own `useEffect` function and calling it with an
arrow callback; there is no import declaration anywhere. -/
def localUseEffectFile : Program :=
  [ .funcDecl (some "useEffect") ["fn"]
      [.exprStmt (.call (.ident "fn") [])],
    .funcDecl (some "App") []
      [.exprStmt (.call (.ident "useEffect")
        [.arrowFn (.block [.exprStmt (.call (.ident "doWork") [])])])] ]

/-- C2 counterexample: the useEffect mutator has no import check — on a file
whose only `useEffect` is a locally defined function and which imports
nothing, `transformCode` still mutates the call site (one site modified, the
module-global counter advances, a write occurs). -/
theorem c2_counterexample_local_useEffect_mutated :
    hasUSImportSs localUseEffectFile = false ∧
    (∃ res : TransformResult,
      transformCode localUseEffectFile "App.jsx" 0 = some (res, 1) ∧
      res.effectsCount = 1 ∧ res.modified.isSome = true) ∧
    (processFileTC ⟨"App.jsx", true, some localUseEffectFile⟩
      0).1.written.isSome = true :=
  ⟨by decide, ⟨_, rfl, rfl, rfl⟩, rfl⟩

/-- C2 amended: the import precondition holds for the useState tools — a file
with no `useState` import from `'react'` yields no finding from the analyzer
and no mutation (and no output change) from the setter logger — but the
useEffect mutator checks no imports at all: it rewrites any call of a bare
identifier named `useEffect`, including a locally defined function, as the
`localUseEffectFile` example shows. -/
theorem c2_amended_import_check_useState_only :
    (∀ (fp : String) (prog : Program), hasUSImportSs prog = false →
      analyzeProgram fp prog = []) ∧
    (∀ prog : Program, hasUSImportSs prog = false →
      mutateSetters prog = (prog, false)) ∧
    (∃ res : TransformResult,
      transformCode localUseEffectFile "App.jsx" 0 = some (res, 1) ∧
      res.modified.isSome = true) := by
  refine ⟨?_, ?_, ⟨_, rfl, rfl⟩⟩
  · intro fp prog hn
    simp only [analyzeProgram]
    rw [anStmts_no_import fp "Unknown Component" _ rfl prog hn]
  · intro prog hn
    simp only [mutateSetters]
    rw [msStmts_no_import "Unknown Component" _ rfl rfl prog hn]

theorem c2_amended_import_check_witness :
    analyzeProgram "App.jsx" localUseEffectFile = [] ∧
    mutateSetters localUseEffectFile = (localUseEffectFile, false) :=
  ⟨c2_amended_import_check_useState_only.1 "App.jsx" localUseEffectFile
    (by decide),
   c2_amended_import_check_useState_only.2.1 localUseEffectFile (by decide)⟩

/-! ## Error isolation (C8) -/

theorem runAnalyzer_append (xs ys : List SrcFile) :
    runAnalyzer (xs ++ ys) = runAnalyzer xs ++ runAnalyzer ys := by
  induction xs with
  | nil => rfl
  | cons f fs ih => simp [runAnalyzer, ih]

theorem runTC_append (c : Nat) (xs ys : List SrcFile) :
    runTC c (xs ++ ys) =
      ((runTC c xs).1 ++ (runTC (runTC c xs).2 ys).1,
        (runTC (runTC c xs).2 ys).2) := by
  induction xs generalizing c with
  | nil => rfl
  | cons f fs ih => simp [runTC, ih]

theorem processFileTC_parse_error (f : SrcFile) (c : Nat)
    (h : f.parse = none) :
    processFileTC f c = (⟨f.path, none, none⟩, c) := by
  by_cases hmen : f.mentions = false
  · simp [processFileTC, hmen]
  · simp [processFileTC, hmen, h]

theorem analyzeFileOpt_parse_error (f : SrcFile) (h : f.parse = none) :
    analyzeFileOpt f = none ∨ analyzeFileOpt f = some [] := by
  by_cases hmen : f.mentions = false
  · exact Or.inl (by simp [analyzeFileOpt, hmen])
  · exact Or.inr (by simp [analyzeFileOpt, hmen, h])

/-- C8: a malformed (unparsable) file is caught per file: it contributes zero
findings and zero mutations, and the batch results — the findings list, the
written files with their contents, the final module-global counter and the
reported total — are exactly those of the run without the malformed file. -/
theorem c8_parse_error_isolated (bad : SrcFile) (hbad : bad.parse = none)
    (xs ys : List SrcFile) (c : Nat) :
    (analyzeFileOpt bad = none ∨ analyzeFileOpt bad = some []) ∧
    (processFileTC bad c).1.written = none ∧
    runAnalyzer (xs ++ bad :: ys) = runAnalyzer (xs ++ ys) ∧
    ((runTC c (xs ++ bad :: ys)).1.filterMap
        (fun o => o.written.map (fun w => (o.path, w))) =
      (runTC c (xs ++ ys)).1.filterMap
        (fun o => o.written.map (fun w => (o.path, w)))) ∧
    (runTC c (xs ++ bad :: ys)).2 = (runTC c (xs ++ ys)).2 ∧
    totalReported (runTC c (xs ++ bad :: ys)).1 =
      totalReported (runTC c (xs ++ ys)).1 := by
  have hstep := processFileTC_parse_error bad
  have hone : ∀ c', runTC c' (bad :: ys) =
      ((⟨bad.path, none, none⟩ : FileOutcome) :: (runTC c' ys).1,
        (runTC c' ys).2) := by
    intro c'
    simp [runTC, hstep c' hbad]
  refine ⟨analyzeFileOpt_parse_error bad hbad,
    by simp [hstep c hbad], ?_, ?_, ?_, ?_⟩
  · rw [runAnalyzer_append, runAnalyzer_append]
    have : runAnalyzer (bad :: ys) = runAnalyzer ys := by
      rcases analyzeFileOpt_parse_error bad hbad with h | h <;>
        simp [runAnalyzer, h]
    rw [this]
  · rw [runTC_append, runTC_append, hone]
    simp [totalReported, List.filterMap_append]
  · rw [runTC_append, runTC_append, hone]
  · rw [runTC_append, runTC_append, hone]
    simp [totalReported, List.filterMap_append]

theorem c8_parse_error_isolated_witness :
    (analyzeFileOpt ⟨"Bad.jsx", true, none⟩ = none ∨
      analyzeFileOpt ⟨"Bad.jsx", true, none⟩ = some []) ∧
    (processFileTC ⟨"Bad.jsx", true, none⟩ 0).1.written = none ∧
    runAnalyzer ([] ++ ⟨"Bad.jsx", true, none⟩ ::
        [⟨"App.jsx", true, some (mkUseStateFile (.arrayE [.numLit 1]))⟩]) =
      runAnalyzer ([] ++
        [⟨"App.jsx", true, some (mkUseStateFile (.arrayE [.numLit 1]))⟩]) ∧
    ((runTC 0 ([] ++ ⟨"Bad.jsx", true, none⟩ ::
        [⟨"App.jsx", true, some (effectFile 1)⟩])).1.filterMap
        (fun o => o.written.map (fun w => (o.path, w))) =
      (runTC 0 ([] ++ [⟨"App.jsx", true, some (effectFile 1)⟩])).1.filterMap
        (fun o => o.written.map (fun w => (o.path, w)))) ∧
    (runTC 0 ([] ++ ⟨"Bad.jsx", true, none⟩ ::
        [⟨"App.jsx", true, some (effectFile 1)⟩])).2 =
      (runTC 0 ([] ++ [⟨"App.jsx", true, some (effectFile 1)⟩])).2 ∧
    totalReported (runTC 0 ([] ++ ⟨"Bad.jsx", true, none⟩ ::
        [⟨"App.jsx", true, some (effectFile 1)⟩])).1 =
      totalReported
        (runTC 0 ([] ++ [⟨"App.jsx", true, some (effectFile 1)⟩])).1 := by
  have h := c8_parse_error_isolated ⟨"Bad.jsx", true, none⟩ rfl
  exact ⟨(h [] [⟨"App.jsx", true, some (mkUseStateFile (.arrayE [.numLit 1]))⟩]
      0).1,
    (h [] [⟨"App.jsx", true, some (effectFile 1)⟩] 0).2.1,
    (h [] [⟨"App.jsx", true, some (mkUseStateFile (.arrayE [.numLit 1]))⟩]
      0).2.2.1,
    (h [] [⟨"App.jsx", true, some (effectFile 1)⟩] 0).2.2.2.1,
    (h [] [⟨"App.jsx", true, some (effectFile 1)⟩] 0).2.2.2.2.1,
    (h [] [⟨"App.jsx", true, some (effectFile 1)⟩] 0).2.2.2.2.2⟩

/-! ## Expression-body callbacks (C6) -/

/-- The value a callback returns, syntactically: the bare expression of an
expression body (implicit return), or the argument of a trailing explicit
`return` in a block body. -/
def FnBody.returnedExpr : FnBody → Option Expr
  | .expr e => some e
  | .block ss =>
      match ss.getLast? with
      | some (.returnStmt (some e)) => some e
      | _ => none

/-- A component file whose single `useEffect` callback has an expression
body: `useEffect(() => compute())`. -/
def exprCallbackFile : Program :=
  [ .funcDecl (some "App") []
      [.exprStmt (.call (.ident "useEffect")
        [.arrowFn (.expr (.call (.ident "compute") []))])] ]

/-- The expected output for `exprCallbackFile`: the callback body has become
a block of the synthesized statements followed by an explicit return of the
original expression. -/
def exprCallbackOutput : Program :=
  [ counterVar 0,
    .funcDecl (some "App") []
      [.exprStmt (.call (.ident "useEffect")
        [.arrowFn (.block
          [incrementCounter 0, effectLogStatement "App" "App.jsx" 0,
           .returnStmt (some (.call (.ident "compute") []))])])] ]

/-- C6: a matched callback whose body is a single expression is rewritten
into a block consisting of the synthesized logging statements (counter
increment, call-count log, and the dependency log when a dependency array is
present) followed by an explicit `return` of the original expression, so the
rewritten callback returns the same expression as the original; the whole
pipeline does exactly this on the canonical expression-body file. -/
theorem c6_expression_body_block_with_explicit_return :
    (∀ (cn fp : String) (idx : Nat) (e : Expr),
      mutateCallbackBody cn fp idx none (.expr e) =
        .block [incrementCounter idx, effectLogStatement cn fp idx,
          .returnStmt (some e)]) ∧
    (∀ (cn fp : String) (idx : Nat) (d e : Expr),
      mutateCallbackBody cn fp idx (some d) (.expr e) =
        .block [incrementCounter idx, effectLogStatement cn fp idx,
          .exprStmt (dependenciesLogger cn idx d), .returnStmt (some e)]) ∧
    (∀ (cn fp : String) (idx : Nat) (deps : Option Expr) (e : Expr),
      (mutateCallbackBody cn fp idx deps (.expr e)).returnedExpr =
        (FnBody.expr e).returnedExpr) ∧
    transformCode exprCallbackFile "App.jsx" 0 =
      some ({ modified := some exprCallbackOutput, effectsCount := 1 }, 1) :=
  ⟨fun _ _ _ _ => rfl, fun _ _ _ _ _ => rfl,
   fun _ _ _ deps _ => by cases deps <;> rfl, rfl⟩

/-! ## The Profiler wrapper (wrapReturnWithProfiler, C7) -/

/-- The synthesized `<Profiler id="Comp" onRender={onRenderCallback}>`
element wrapping a return argument (built with `selfClosing := false`). -/
def profilerWrapper (componentName : String) (arg : Expr) : Expr :=
  .jsx "Profiler"
    [("id", .strLit componentName), ("onRender", .ident "onRenderCallback")]
    [arg] false

/-- The `ReturnStatement` visitor of `wrapReturnWithProfiler`: an argument
that is neither a JSX element nor a fragment is left alone; a JSX element
whose opening tag is already `Profiler` is skipped; anything else is wrapped
in the Profiler element. -/
def wrapReturnArg (componentName : String) (arg : Expr) : Expr :=
  match arg with
  | .jsx tag attrs children sc =>
      if tag = "Profiler" then .jsx tag attrs children sc
      else profilerWrapper componentName (.jsx tag attrs children sc)
  | .jsxFragment children =>
      profilerWrapper componentName (.jsxFragment children)
  | other => other

/-- C7: a return argument that is already a JSX element with opening tag
`Profiler` is left unchanged by the wrap operation, and the wrap operation is
idempotent on every argument — repeated runs never nest a second wrapper. -/
theorem c7_profiler_wrap_idempotent :
    (∀ (cn : String) (attrs : List (String × Expr)) (children : List Expr)
       (sc : Bool),
      wrapReturnArg cn (.jsx "Profiler" attrs children sc) =
        .jsx "Profiler" attrs children sc) ∧
    (∀ (cn : String) (a : Expr),
      wrapReturnArg cn (wrapReturnArg cn a) = wrapReturnArg cn a) := by
  refine ⟨fun cn attrs children sc => by simp [wrapReturnArg], fun cn a => ?_⟩
  cases a <;>
    first
    | rfl
    | (rename_i tag attrs children sc
       by_cases h : tag = "Profiler" <;>
         simp [wrapReturnArg, profilerWrapper, h])
    | simp [wrapReturnArg, profilerWrapper]

end DebugUseEffects
